import Mathlib

/-!
Verification of the change-classification logic of `tools/send-updates.py`.

The development shallowly embeds the program: document records become a
structure, the status and action enumerations become inductive types,
dictionary accesses that can fail in the source become `Option`, and the
reporting loop of `main` becomes explicit list processing.  The enumerations
`Status` and `Action` and the mapping `Action.fromstatus` live in `xeplib`,
which is imported by the script but is not part of the sources at hand; they
are modelled from the specification where noted.
-/

namespace XepsTool

/-- Modelled from the spec: the status enumeration of `xeplib` (imported by
the script, not among the sources).  The spec fixes at least `PROTO`,
`EXPERIMENTAL`, `PROPOSED`, `DEFERRED` plus further accepted tiers
(draft/active/final). -/
inductive Status where
  | PROTO
  | EXPERIMENTAL
  | PROPOSED
  | DEFERRED
  | DRAFT
  | ACTIVE
  | FINAL
deriving DecidableEq, Inhabited

/-- Modelled from the spec: the action enumeration of `xeplib` (imported by
the script, not among the sources): `NEW`, `PROTO`, `UPDATE`, `LAST_CALL`,
`DEFER` plus actions derived generically from the accepted tiers. -/
inductive Action where
  | PROTO
  | NEW
  | UPDATE
  | LAST_CALL
  | DEFER
  | DRAFT
  | ACTIVE
  | FINAL
deriving DecidableEq, Inhabited

/-- Modelled from the spec: `xeplib`'s generic status-to-action mapping
(`Action.fromstatus`), total over the enumerated statuses.  The spec fixes
the tier statuses' default actions; for `EXPERIMENTAL` and `PROPOSED` it
fixes only that the mapping is total, so the two values chosen here are
arbitrary and no theorem below depends on them. -/
def Action.fromstatus : Status → Action
  | Status.PROTO => Action.PROTO
  | Status.EXPERIMENTAL => Action.NEW
  | Status.PROPOSED => Action.UPDATE
  | Status.DEFERRED => Action.DEFER
  | Status.DRAFT => Action.DRAFT
  | Status.ACTIVE => Action.ACTIVE
  | Status.FINAL => Action.FINAL

/-- Embeds the `last_revision` sub-dictionary of a record.  Keys that may be
absent in the source dictionaries become `Option` fields. -/
structure Revision where
  version : Option String
  remark : Option String
  initials : Option String
deriving DecidableEq, Inhabited

/-- Embeds a document record (the per-XEP info dictionary).  The `status`
field is `Option Status`: `none` is the "did not previously exist" sentinel
produced by `dummy_info`.  `last_call` and `last_revision` may be absent. -/
structure XEPInfo where
  status : Option Status
  accepted : Bool
  number : Nat
  title : String
  abstract : String
  type : String
  approver : String
  protoname : String
  last_call : Option String
  last_revision : Option Revision
deriving DecidableEq, Inhabited

/-- Embeds `dummy_info` from the source.  The Python dictionary carries only
the `status`/`accepted`/`number` keys; the remaining fields are never read
for a dummy record and default to empty values here. -/
def dummy_info (number : Nat) : XEPInfo :=
  { status := none
    accepted := false
    number := number
    title := ""
    abstract := ""
    type := ""
    approver := ""
    protoname := ""
    last_call := none
    last_revision := none }

/-- Embeds `extract_version`: `info.get("last_revision", {}).get("version")`. -/
def extract_version (info : XEPInfo) : Option String :=
  info.last_revision.bind Revision.version

/-- Embeds `diff_infos` from the source.  Every branch of the first `if`
returns, so the `elif` and the trailing version comparison are only reached
when the statuses are equal, exactly as in the Python control flow.  In the
generic fallback the source calls `xeplib`'s `Action.fromstatus` on the new
status; a record parsed from a snapshot always carries a status, and no
theorem below depends on that branch at a `none` status. -/
def diff_infos (old new : XEPInfo) : Option Action :=
  if old.status ≠ new.status then
    if new.status = some Status.PROTO then
      some Action.PROTO
    else if old.status = none then
      some Action.NEW
    else if old.status = some Status.DEFERRED ∧
        new.status = some Status.EXPERIMENTAL then
      some Action.UPDATE
    else if old.status = some Status.PROPOSED ∧
        new.status = some Status.EXPERIMENTAL then
      none
    else
      Option.map Action.fromstatus new.status
  else if old.status = some Status.PROPOSED ∧
      old.last_call ≠ new.last_call then
    some Action.LAST_CALL
  else
    let old_version := extract_version old
    let new_version := extract_version new
    if old_version ≠ new_version then some Action.UPDATE else none

/-- Written from the words of spec 4.1 (the claim's wording): the
priority-ordered, first-match-wins rule list, stated with the equal-status
case first so that the definition is structured differently from
`diff_infos` and the agreement below is not definitional. -/
def classifySpec (old new : XEPInfo) : Option Action :=
  if old.status = new.status then
    if old.status = some Status.PROPOSED ∧ old.last_call ≠ new.last_call then
      some Action.LAST_CALL
    else if extract_version old ≠ extract_version new then
      some Action.UPDATE
    else
      none
  else if new.status = some Status.PROTO then
    some Action.PROTO
  else if old.status = none then
    some Action.NEW
  else if old.status = some Status.DEFERRED ∧
      new.status = some Status.EXPERIMENTAL then
    some Action.UPDATE
  else if old.status = some Status.PROPOSED ∧
      new.status = some Status.EXPERIMENTAL then
    none
  else
    Option.map Action.fromstatus new.status

/-- Embeds Python's `s.split(".")` on the character list of the string:
splitting an empty string yields one empty component, each dot starts a new
component.  (The core `String.splitOn` agrees but is defined by well-founded
recursion, which the kernel cannot evaluate; this structural version keeps
every concrete instance computable by `decide`.) -/
def splitDotChars : List Char → List (List Char)
  | [] => [[]]
  | c :: rest =>
    match splitDotChars rest with
    | [] => [[c]]
    | g :: gs => if c = '.' then [] :: g :: gs else (c :: g) :: gs

/-- Embeds Python's `s.split(".")`. -/
def splitDot (s : String) : List String :=
  (splitDotChars s.data).map String.mk

/-- Embeds `decompose_version`: split on dots and pad with `"0"` up to three
components. -/
def decompose_version (s : String) : List String :=
  let version_info := splitDot s
  if version_info.length < 3 then
    version_info ++ List.replicate (3 - version_info.length) "0"
  else
    version_info

/-- Embeds `filter_bump_level` (the spec's `is_significant`).  When the old
version is present the source calls `decompose_version(new_version)`, which
raises on `None`; that error branch is the outer `none`. -/
def filter_bump_level (old_version new_version : Option String)
    (include_editorial include_non_editorial : Bool) : Option Bool :=
  (match old_version with
    | none =>
      -- treat as non-editorial
      some false
    | some ov =>
      match new_version with
      | none => none
      | some nv =>
        -- if the version number only differs in patch level or below, the
        -- change is editorial
        some (decide
          ((decompose_version ov).take 2 = (decompose_version nv).take 2))).map
    fun is_editorial =>
      if is_editorial && !include_editorial then false
      else if !is_editorial && !include_non_editorial then false
      else true

/-- C1: `diff_infos` follows the priority-ordered, first-match-wins
algorithm of spec 4.1, with the stated behaviour both when the statuses
differ (branches (a)-(e)) and when they are equal (last-call check for
proposed documents, then the version comparison, then silence). -/
theorem claim1_classifier_matches_spec (old new : XEPInfo) :
    diff_infos old new = classifySpec old new := by
  unfold diff_infos classifySpec
  by_cases h : old.status = new.status <;> simp [h]

/-- C2: `decompose_version` always yields at least three components, padding
with `"0"`; the change is editorial exactly when the old version is present
and the first two components agree; the filter returns `true` exactly when
the classification is permitted by the corresponding include flag; and the
four concrete examples of the spec evaluate as stated. -/
theorem claim2_significance_filter_characterisation :
    (∀ s : String, 3 ≤ (decompose_version s).length) ∧
    (∀ s : String, decompose_version s =
      splitDot s ++ List.replicate (3 - (splitDot s).length) "0") ∧
    (∀ ov nv : String, ∀ ie ine : Bool,
      filter_bump_level (some ov) (some nv) ie ine =
        some (if (decompose_version ov).take 2 = (decompose_version nv).take 2
          then ie else ine)) ∧
    (∀ nv : Option String, ∀ ie ine : Bool,
      filter_bump_level none nv ie ine = some ine) ∧
    filter_bump_level (some "1.2.3") (some "1.2.9") false true = some false ∧
    filter_bump_level (some "1.2.3") (some "2.0.0") true false = some false ∧
    filter_bump_level (some "1.2.3") (some "1.2.9") true true = some true ∧
    filter_bump_level (some "1.2.3") (some "2.0.0") true true = some true ∧
    filter_bump_level none (some "1.0.0") false true = some true := by
  refine ⟨?_, ?_, ?_, ?_, by decide, by decide, by decide, by decide, by decide⟩
  · intro s
    unfold decompose_version
    by_cases h : (splitDot s).length < 3
    · simp [h]
      omega
    · simp [h]
      omega
  · intro s
    unfold decompose_version
    by_cases h : (splitDot s).length < 3
    · simp [h]
    · simp [h]
      omega
  · intro ov nv ie ine
    unfold filter_bump_level
    by_cases h : (decompose_version ov).take 2 = (decompose_version nv).take 2
    · cases ie <;> cases ine <;> simp [h]
    · cases ie <;> cases ine <;> simp [h]
  · intro nv ie ine
    cases ine <;> simp [filter_bump_level]

/-- C4: with differing statuses, a deferred document turning experimental is
classified `UPDATE`, while a proposed document turning experimental yields
no action at all. -/
theorem claim4_deferred_vs_proposed_to_experimental (old new : XEPInfo) :
    (old.status = some Status.DEFERRED → new.status = some Status.EXPERIMENTAL →
      diff_infos old new = some Action.UPDATE) ∧
    (old.status = some Status.PROPOSED → new.status = some Status.EXPERIMENTAL →
      diff_infos old new = none) := by
  constructor
  · intro h1 h2
    unfold diff_infos
    simp [h1, h2]
  · intro h1 h2
    unfold diff_infos
    simp [h1, h2]

theorem claim4_witness :
    diff_infos
      { dummy_info 1 with status := some Status.DEFERRED }
      { dummy_info 1 with status := some Status.EXPERIMENTAL }
      = some Action.UPDATE ∧
    diff_infos
      { dummy_info 1 with status := some Status.PROPOSED }
      { dummy_info 1 with status := some Status.EXPERIMENTAL }
      = none :=
  ⟨(claim4_deferred_vs_proposed_to_experimental _ _).1 rfl rfl,
   (claim4_deferred_vs_proposed_to_experimental _ _).2 rfl rfl⟩

/-- C5: equal statuses, equal last-call dates and equal last-revision
version strings yield no action, whatever the other fields do. -/
theorem claim5_no_change_is_silent (old new : XEPInfo)
    (hs : old.status = new.status) (hl : old.last_call = new.last_call)
    (hv : extract_version old = extract_version new) :
    diff_infos old new = none := by
  unfold diff_infos
  simp [hs, hl, hv]

theorem claim5_witness :
    diff_infos
      { dummy_info 7 with status := some Status.FINAL, title := "a" }
      { dummy_info 7 with status := some Status.FINAL, title := "b" }
      = none :=
  claim5_no_change_is_silent _ _ rfl rfl rfl

/-- Fuel-driven decimal digit extraction (most significant digit first).
Structural recursion on the fuel keeps every concrete instance evaluable by
the kernel; `fuel = n` is always sufficient since `n < 10 ^ n`. -/
def decimalDigitsAux : Nat → Nat → List Char
  | 0, _ => []
  | fuel + 1, n =>
    if n = 0 then []
    else decimalDigitsAux fuel (n / 10) ++ [Nat.digitChar (n % 10)]

/-- Decimal digit characters of `n`, most significant first (empty for 0). -/
def decimalChars (n : Nat) : List Char :=
  decimalDigitsAux n n

/-- Embeds the Python format specifier `{:04d}`: the decimal representation
of the number, left-padded with `'0'` to at least four characters. -/
def format04 (n : Nat) : String :=
  String.mk (List.replicate (4 - (decimalChars n).length) '0' ++ decimalChars n)

/-- Decimal re-parser used to read a formatted number back: accepts a
non-empty all-digit string and folds its digits up. -/
def parseDecimal (s : String) : Option Nat :=
  if s.data ≠ [] ∧ s.data.all Char.isDigit then
    some (s.data.foldl (fun a c => 10 * a + (c.toNat - 48)) 0)
  else none

theorem digitChar_toNat_sub (d : Nat) (h : d < 10) :
    (Nat.digitChar d).toNat - 48 = d := by
  revert d h
  decide

theorem digitChar_isDigit (d : Nat) (h : d < 10) :
    (Nat.digitChar d).isDigit = true := by
  revert d h
  decide

theorem foldl_digits_shift (l : List Char) (a : Nat) :
    l.foldl (fun a c => 10 * a + (c.toNat - 48)) a =
      a * 10 ^ l.length + l.foldl (fun a c => 10 * a + (c.toNat - 48)) 0 := by
  induction l generalizing a with
  | nil => simp
  | cons c l ih =>
    simp only [List.foldl_cons, List.length_cons]
    rw [ih (10 * a + (c.toNat - 48)), ih (10 * 0 + (c.toNat - 48))]
    ring

theorem decimalDigitsAux_foldl (fuel : Nat) :
    ∀ n : Nat, n < 10 ^ fuel →
      (decimalDigitsAux fuel n).foldl (fun a c => 10 * a + (c.toNat - 48)) 0
        = n := by
  induction fuel with
  | zero =>
    intro n hn
    simp only [pow_zero, Nat.lt_one_iff] at hn
    subst hn
    simp [decimalDigitsAux]
  | succ fuel ih =>
    intro n hn
    by_cases h0 : n = 0
    · subst h0
      simp [decimalDigitsAux]
    · rw [decimalDigitsAux, if_neg h0, List.foldl_append]
      have hdiv : n / 10 < 10 ^ fuel := by
        rw [Nat.div_lt_iff_lt_mul (by norm_num)]
        calc n < 10 ^ (fuel + 1) := hn
        _ = 10 ^ fuel * 10 := by ring
      rw [ih (n / 10) hdiv]
      simp only [List.foldl_cons, List.foldl_nil]
      rw [digitChar_toNat_sub (n % 10) (Nat.mod_lt _ (by norm_num))]
      omega

theorem decimalDigitsAux_digits (fuel : Nat) :
    ∀ n : Nat, ∀ c ∈ decimalDigitsAux fuel n, c.isDigit = true := by
  induction fuel with
  | zero =>
    intro n c hc
    simp [decimalDigitsAux] at hc
  | succ fuel ih =>
    intro n c hc
    rw [decimalDigitsAux] at hc
    by_cases h0 : n = 0
    · simp [h0] at hc
    · rw [if_neg h0, List.mem_append] at hc
      rcases hc with hc | hc
      · exact ih _ c hc
      · simp only [List.mem_singleton] at hc
        subst hc
        exact digitChar_isDigit _ (Nat.mod_lt _ (by norm_num))

theorem foldl_replicate_zero (k : Nat) :
    (List.replicate k '0').foldl (fun a c => 10 * a + (c.toNat - 48)) 0 = 0 := by
  induction k with
  | zero => simp
  | succ k ih => simpa [List.replicate_succ] using ih

/-- Reading the `{:04d}`-formatted decimal back yields the number. -/
theorem parseDecimal_format04 (n : Nat) : parseDecimal (format04 n) = some n := by
  have hlt : n < 10 ^ n := Nat.lt_pow_self (by norm_num) n
  have hne : (List.replicate (4 - (decimalChars n).length) '0'
      ++ decimalChars n) ≠ [] := by
    rcases Nat.eq_zero_or_pos (decimalChars n).length with h | h
    · rw [List.length_eq_zero] at h
      simp [h]
    · have h2 : 0 < (List.replicate (4 - (decimalChars n).length) '0'
          ++ decimalChars n).length := by
        rw [List.length_append]
        omega
      intro hcontra
      rw [hcontra] at h2
      simp at h2
  have hdig : ∀ c ∈ List.replicate (4 - (decimalChars n).length) '0'
      ++ decimalChars n, c.isDigit = true := by
    intro c hc
    rw [List.mem_append] at hc
    rcases hc with hc | hc
    · rw [List.eq_of_mem_replicate hc]
      decide
    · exact decimalDigitsAux_digits n n c hc
  unfold parseDecimal format04
  rw [if_pos]
  · congr 1
    show (List.replicate (4 - (decimalChars n).length) '0'
        ++ decimalChars n).foldl (fun a c => 10 * a + (c.toNat - 48)) 0 = n
    rw [List.foldl_append, foldl_replicate_zero]
    exact decimalDigitsAux_foldl n n hlt
  · refine ⟨hne, ?_⟩
    rw [List.all_eq_true]
    exact hdig

/-- Modelled from the spec: the display strings of `xeplib`'s `Status`
members (the glossary names `ProtoXEP`, and the enumeration names the other
statuses); used for the `XSF-XEP-Status` header. -/
def Status.value : Status → String
  | Status.PROTO => "ProtoXEP"
  | Status.EXPERIMENTAL => "Experimental"
  | Status.PROPOSED => "Proposed"
  | Status.DEFERRED => "Deferred"
  | Status.DRAFT => "Draft"
  | Status.ACTIVE => "Active"
  | Status.FINAL => "Final"

/-- Modelled from the spec: the display strings of `xeplib`'s `Action`
members, used in the non-proto subject line and the `XSF-XEP-Action`
header.  The names follow the enumeration; only their injectivity matters
to the theorems below. -/
def Action.value : Action → String
  | Action.PROTO => "PROTO"
  | Action.NEW => "NEW"
  | Action.UPDATE => "UPDATE"
  | Action.LAST_CALL => "LAST CALL"
  | Action.DEFER => "DEFER"
  | Action.DRAFT => "DRAFT"
  | Action.ACTIVE => "ACTIVE"
  | Action.FINAL => "FINAL"

/-- Re-parser for the `XSF-XEP-Action` header: the inverse table of
`Action.value`. -/
def Action.fromValue (s : String) : Option Action :=
  if s = "PROTO" then some Action.PROTO
  else if s = "NEW" then some Action.NEW
  else if s = "UPDATE" then some Action.UPDATE
  else if s = "LAST CALL" then some Action.LAST_CALL
  else if s = "DEFER" then some Action.DEFER
  else if s = "DRAFT" then some Action.DRAFT
  else if s = "ACTIVE" then some Action.ACTIVE
  else if s = "FINAL" then some Action.FINAL
  else none

/-- Re-parser for the `XSF-XEP-Status` header: the inverse table of
`Status.value`. -/
def Status.fromValue (s : String) : Option Status :=
  if s = "ProtoXEP" then some Status.PROTO
  else if s = "Experimental" then some Status.EXPERIMENTAL
  else if s = "Proposed" then some Status.PROPOSED
  else if s = "Deferred" then some Status.DEFERRED
  else if s = "Draft" then some Status.DRAFT
  else if s = "Active" then some Status.ACTIVE
  else if s = "Final" then some Status.FINAL
  else none

/-- Embeds `XEP_URL_PREFIX` from the source. -/
def XEP_URL_BASE : String := "https://xmpp.org/extensions/"

/-- Embeds the url built in `make_nonproto_mail`. -/
def xep_url (number : Nat) : String :=
  XEP_URL_BASE ++ "xep-" ++ format04 number ++ ".html"

/-- Embeds the url built in `make_proto_mail`. -/
def proto_url (protoname : String) : String :=
  XEP_URL_BASE ++ "inbox/" ++ protoname ++ ".html"

/-- Embeds `STALENOTE` from the source (the staleness disclaimer that the
update and defer body templates append). -/
def STALENOTE : String :=
  "\n\nNote: The information in the XEP list at https://xmpp.org/extensions/ is updated by a separate automated process and may be stale at the time this email is sent. The XEP documents linked herein are up-to-date."

/-- Embeds the formatting of `info["last_call"]`: Python stringifies the
date, and stringifies an absent value as `None`. -/
def lastCallStr : Option String → String
  | some d => d
  | none => "None"

/-- Embeds an instantiation of `MAIL_PROTO_TEMPLATE`: the body as the list
of its segments, literal template text alternating with interpolated record
fields.  The source joins the segments and re-wraps long lines
(`wraptext`), which the claims do not touch. -/
def proto_body_segments (info : XEPInfo) (url : String) : List String :=
  ["The XMPP Extensions Editor has received a proposal for a new XEP.\n\nTitle: ",
   info.title,
   "\nAbstract:\n",
   info.abstract,
   "\n\nURL: ",
   url,
   "\n\nThe ",
   info.approver,
   " will decide in the next two weeks whether to accept this proposal as an official XEP."]

/-- Embeds an instantiation of `MAIL_LAST_CALL_TEMPLATE` as its segment
list. -/
def last_call_body_segments (info : XEPInfo) (url : String) : List String :=
  ["This message constitutes notice of a Last Call for comments on XEP-",
   format04 info.number,
   ".\n\nTitle: ",
   info.title,
   "\nAbstract:\n",
   info.abstract,
   "\n\nURL: ",
   url,
   "\n\nThis Last Call begins today and shall end at the close of business on ",
   lastCallStr info.last_call,
   ".\n\nPlease consider the following questions during this Last Call and send your feedback to the standards@xmpp.org discussion list:\n\n1. Is this specification needed to fill gaps in the XMPP protocol stack or to clarify an existing protocol?\n\n2. Does the specification solve the problem stated in the introduction and requirements?\n\n3. Do you plan to implement this specification in your code? If not, why not?\n\n4. Do you have any security concerns related to this specification?\n\n5. Is the specification accurate and clearly written?\n\nYour feedback is appreciated!\n"]

/-- Embeds an instantiation of `MAIL_NONPROTO_TEMPLATE` (which the source
defines as the template text directly followed by `STALENOTE`) as its
segment list. -/
def nonproto_body_segments (info : XEPInfo) (changelog url version : String) :
    List String :=
  ["Version ",
   version,
   " of XEP-",
   format04 info.number,
   " (",
   info.title,
   ") has been released.\n\nAbstract:\n",
   info.abstract,
   "\n\nChangelog:\n",
   changelog,
   "\n\nURL: ",
   url,
   STALENOTE]

/-- Embeds an instantiation of `MAIL_DEFER_TEMPLATE` (which the source
defines as the template text directly followed by `STALENOTE`) as its
segment list. -/
def defer_body_segments (info : XEPInfo) (url : String) : List String :=
  ["XEP-",
   format04 info.number,
   " (",
   info.title,
   ") has been Deferred because of inactivity.\n\nAbstract:\n",
   info.abstract,
   "\n\nURL: ",
   url,
   "\n\nIf and when a new revision of this XEP is published, its status will be changed back to Experimental.",
   STALENOTE]

/-- Embeds the changelog fallback logic at the top of `make_nonproto_mail`:
the remark/initials line when both are truthy (present and non-empty),
otherwise the fixed placeholder. -/
def changelog_line (info : XEPInfo) : String :=
  match info.last_revision with
  | none => "(see in-document revision history)"
  | some lr =>
    match lr.remark, lr.initials with
    | some remark, some initials =>
      if remark ≠ "" ∧ initials ≠ "" then remark ++ " (" ++ initials ++ ")"
      else "(see in-document revision history)"
    | _, _ => "(see in-document revision history)"

/-- Embeds a composed notification: the declared metadata headers and the
subject, plus the plain-text body as its segment list (the source joins the
segments and re-wraps lines before `set_content`). -/
structure Mail where
  subject : String
  action : String
  title : String
  mtype : String
  status : String
  number : Option String
  url : String
  approver : Option String
  body : List String
deriving DecidableEq, Inhabited

/-- Embeds `make_proto_mail`.  The source reads `info["status"].value`,
which raises when the record has no status; that failure is the `none`
result. -/
def make_proto_mail (info : XEPInfo) : Option Mail :=
  match info.status with
  | none => none
  | some st =>
    let url := proto_url info.protoname
    some
      { subject := "Proposed XMPP Extension: " ++ info.title
        action := "PROTO"
        title := info.title
        mtype := info.type
        status := st.value
        number := none
        url := url
        approver := some info.approver
        body := proto_body_segments info url }

/-- Embeds `make_nonproto_mail`: the defer and last-call bodies for those
two actions, the generic released-version body otherwise.  The source reads
`info["status"].value` and, in the generic template,
`info["last_revision"]["version"]`; either read raises when the value is
absent, which is the `none` result here. -/
def make_nonproto_mail (action : Action) (info : XEPInfo) : Option Mail :=
  match info.status with
  | none => none
  | some st =>
    let changelog := changelog_line info
    let url := xep_url info.number
    let body :=
      if action = Action.DEFER then some (defer_body_segments info url)
      else if action = Action.LAST_CALL then
        some (last_call_body_segments info url)
      else
        (extract_version info).map
          (fun v => nonproto_body_segments info changelog url v)
    match body with
    | none => none
    | some body =>
      some
        { subject := action.value ++ ": XEP-" ++ format04 info.number
            ++ " (" ++ info.title ++ ")"
          action := action.value
          title := info.title
          mtype := info.type
          status := st.value
          number := some (format04 info.number)
          url := url
          approver := none
          body := body }

theorem action_fromValue_value (a : Action) : Action.fromValue a.value = some a := by
  cases a <;> rfl

theorem status_fromValue_value (s : Status) : Status.fromValue s.value = some s := by
  cases s <;> rfl

theorem format04_data_digits (n : Nat) :
    ∀ c ∈ (format04 n).data, c.isDigit = true := by
  intro c hc
  unfold format04 at hc
  rw [show (String.mk (List.replicate (4 - (decimalChars n).length) '0'
      ++ decimalChars n)).data
    = List.replicate (4 - (decimalChars n).length) '0' ++ decimalChars n
    from rfl] at hc
  rw [List.mem_append] at hc
  rcases hc with hc | hc
  · rw [List.eq_of_mem_replicate hc]
    decide
  · exact decimalDigitsAux_digits n n c hc

theorem format04_ne_STALENOTE (n : Nat) : format04 n ≠ STALENOTE := by
  intro h
  have hm : '\n' ∈ (format04 n).data := by
    rw [h]
    decide
  have := format04_data_digits n '\n' hm
  simp [Char.isDigit] at this

theorem xep_url_ne_STALENOTE (n : Nat) : xep_url n ≠ STALENOTE := by
  intro h
  have h2 : (xep_url n).data.head? = some '\n' := by
    rw [h]
    decide
  unfold xep_url XEP_URL_BASE at h2
  simp only [String.data_append] at h2
  rw [List.append_assoc, List.append_assoc,
    List.head?_append_of_ne_nil _ (by decide)] at h2
  revert h2
  decide

theorem proto_url_ne_STALENOTE (p : String) : proto_url p ≠ STALENOTE := by
  intro h
  have h2 : (proto_url p).data.head? = some '\n' := by
    rw [h]
    decide
  unfold proto_url XEP_URL_BASE at h2
  simp only [String.data_append] at h2
  rw [List.append_assoc, List.append_assoc,
    List.head?_append_of_ne_nil _ (by decide)] at h2
  revert h2
  decide

theorem lastCallStr_ne_STALENOTE (lc : Option String)
    (h : lc ≠ some STALENOTE) : lastCallStr lc ≠ STALENOTE := by
  cases lc with
  | none => decide
  | some d =>
    intro hd
    exact h (by rw [lastCallStr] at hd; rw [hd])

/-- C9: composing a notification and reading back its declared metadata
headers (action, title, status, number, url) recovers exactly the action
and record fields used to construct it, for the non-proto composer and for
the proto composer. -/
theorem claim9_compose_readback_roundtrip (a : Action) (info : XEPInfo) (m : Mail) :
    (make_nonproto_mail a info = some m →
      Action.fromValue m.action = some a ∧
      m.title = info.title ∧
      Status.fromValue m.status = info.status ∧
      m.number.bind parseDecimal = some info.number ∧
      m.url = xep_url info.number) ∧
    (make_proto_mail info = some m →
      Action.fromValue m.action = some Action.PROTO ∧
      m.title = info.title ∧
      Status.fromValue m.status = info.status ∧
      m.url = proto_url info.protoname) := by
  constructor
  · intro h
    simp only [make_nonproto_mail] at h
    split at h
    · exact absurd h (by simp)
    · rename_i st hst
      split at h
      · exact absurd h (by simp)
      · rename_i body hbody
        rw [Option.some_inj] at h
        subst h
        refine ⟨action_fromValue_value a, rfl, ?_, ?_, rfl⟩
        · show Status.fromValue st.value = info.status
          rw [status_fromValue_value, hst]
        · exact parseDecimal_format04 info.number
  · intro h
    simp only [make_proto_mail] at h
    split at h
    · exact absurd h (by simp)
    · rename_i st hst
      rw [Option.some_inj] at h
      subst h
      refine ⟨rfl, rfl, ?_, rfl⟩
      show Status.fromValue st.value = info.status
      rw [status_fromValue_value, hst]

/-- Shared concrete record for evaluating the composers. -/
def sampleRevision : Revision :=
  { version := some "1.2.3"
    remark := some "Fixed a typo."
    initials := some "ab" }

/-- Shared concrete record for evaluating the composers. -/
def sampleInfo : XEPInfo :=
  { status := some Status.EXPERIMENTAL
    accepted := true
    number := 42
    title := "Sample Title"
    abstract := "Sample abstract."
    type := "Standards Track"
    approver := "Council"
    protoname := "sample"
    last_call := some "2026-01-01"
    last_revision := some sampleRevision }

/-- Shared concrete non-proto mail computed from `sampleInfo`. -/
def sampleNonprotoMail : Mail :=
  (make_nonproto_mail Action.UPDATE sampleInfo).getD default

/-- Shared concrete proto mail computed from `sampleInfo`. -/
def sampleProtoMail : Mail :=
  (make_proto_mail sampleInfo).getD default

theorem claim9_witness :
    make_nonproto_mail Action.UPDATE sampleInfo = some sampleNonprotoMail ∧
    Action.fromValue sampleNonprotoMail.action = some Action.UPDATE ∧
    sampleNonprotoMail.title = sampleInfo.title ∧
    Status.fromValue sampleNonprotoMail.status = sampleInfo.status ∧
    sampleNonprotoMail.number.bind parseDecimal = some 42 ∧
    make_proto_mail sampleInfo = some sampleProtoMail ∧
    Action.fromValue sampleProtoMail.action = some Action.PROTO := by
  have h1 : make_nonproto_mail Action.UPDATE sampleInfo = some sampleNonprotoMail := by
    rfl
  have h2 : make_proto_mail sampleInfo = some sampleProtoMail := by
    rfl
  have r1 := (claim9_compose_readback_roundtrip Action.UPDATE sampleInfo
    sampleNonprotoMail).1 h1
  have r2 := (claim9_compose_readback_roundtrip Action.UPDATE sampleInfo
    sampleProtoMail).2 h2
  exact ⟨h1, r1.1, r1.2.1, r1.2.2.1, r1.2.2.2.1, h2, r2.1⟩

/-- C10: the staleness disclaimer is the final paragraph of the bodies the
non-proto composer builds for the generic update template and for the defer
template, and it occurs nowhere in the bodies built for a new proposal or a
last call (provided, for the latter two, that the record's own free-text
fields do not happen to contain the disclaimer verbatim). -/
theorem claim10_staleness_disclaimer (a : Action) (info : XEPInfo) (m : Mail) :
    (a ≠ Action.DEFER → a ≠ Action.LAST_CALL →
      make_nonproto_mail a info = some m →
      m.body.getLast? = some STALENOTE) ∧
    (make_nonproto_mail Action.DEFER info = some m →
      m.body.getLast? = some STALENOTE) ∧
    (make_proto_mail info = some m →
      info.title ≠ STALENOTE → info.abstract ≠ STALENOTE →
      info.approver ≠ STALENOTE →
      STALENOTE ∉ m.body) ∧
    (make_nonproto_mail Action.LAST_CALL info = some m →
      info.title ≠ STALENOTE → info.abstract ≠ STALENOTE →
      info.last_call ≠ some STALENOTE →
      STALENOTE ∉ m.body) := by
  refine ⟨?_, ?_, ?_, ?_⟩
  · intro hd hl h
    simp only [make_nonproto_mail] at h
    split at h
    · exact absurd h (by simp)
    · rename_i st hst
      split at h
      · exact absurd h (by simp)
      · rename_i body hbody
        rw [Option.some_inj] at h
        subst h
        rw [if_neg hd, if_neg hl] at hbody
        obtain ⟨v, hv, hbv⟩ := Option.map_eq_some'.mp hbody
        show body.getLast? = some STALENOTE
        rw [← hbv]
        rfl
  · intro h
    simp only [make_nonproto_mail] at h
    split at h
    · exact absurd h (by simp)
    · rename_i st hst
      split at h
      · exact absurd h (by simp)
      · rename_i body hbody
        rw [Option.some_inj] at h
        subst h
        simp only [reduceIte] at hbody
        rw [Option.some_inj] at hbody
        show body.getLast? = some STALENOTE
        rw [← hbody]
        rfl
  · intro h ht ha hap
    simp only [make_proto_mail] at h
    split at h
    · exact absurd h (by simp)
    · rename_i st hst
      rw [Option.some_inj] at h
      subst h
      show STALENOTE ∉ proto_body_segments info (proto_url info.protoname)
      intro hmem
      simp only [proto_body_segments, List.mem_cons, List.not_mem_nil,
        or_false] at hmem
      rcases hmem with h1 | h1 | h1 | h1 | h1 | h1 | h1 | h1 | h1
      · revert h1; decide
      · exact ht h1.symm
      · revert h1; decide
      · exact ha h1.symm
      · revert h1; decide
      · exact proto_url_ne_STALENOTE info.protoname h1.symm
      · revert h1; decide
      · exact hap h1.symm
      · revert h1; decide
  · intro h ht ha hlc
    simp only [make_nonproto_mail] at h
    split at h
    · exact absurd h (by simp)
    · rename_i st hst
      split at h
      · exact absurd h (by simp)
      · rename_i body hbody
        rw [Option.some_inj] at h
        subst h
        simp only [reduceIte, reduceCtorEq] at hbody
        rw [Option.some_inj] at hbody
        show STALENOTE ∉ body
        rw [← hbody]
        intro hmem
        simp only [last_call_body_segments, List.mem_cons, List.not_mem_nil,
          or_false] at hmem
        rcases hmem with h1 | h1 | h1 | h1 | h1 | h1 | h1 | h1 | h1 | h1 | h1
        · revert h1; decide
        · exact format04_ne_STALENOTE info.number h1.symm
        · revert h1; decide
        · exact ht h1.symm
        · revert h1; decide
        · exact ha h1.symm
        · revert h1; decide
        · exact xep_url_ne_STALENOTE info.number h1.symm
        · revert h1; decide
        · exact lastCallStr_ne_STALENOTE info.last_call hlc h1.symm
        · revert h1; decide

/-- Shared concrete defer mail computed from `sampleInfo`. -/
def sampleDeferMail : Mail :=
  (make_nonproto_mail Action.DEFER sampleInfo).getD default

/-- Shared concrete last-call mail computed from `sampleInfo`. -/
def sampleLastCallMail : Mail :=
  (make_nonproto_mail Action.LAST_CALL sampleInfo).getD default

theorem claim10_witness :
    sampleNonprotoMail.body.getLast? = some STALENOTE ∧
    sampleDeferMail.body.getLast? = some STALENOTE ∧
    STALENOTE ∉ sampleProtoMail.body ∧
    STALENOTE ∉ sampleLastCallMail.body := by
  have c1 := claim10_staleness_disclaimer Action.UPDATE sampleInfo sampleNonprotoMail
  have c2 := claim10_staleness_disclaimer Action.DEFER sampleInfo sampleDeferMail
  have c3 := claim10_staleness_disclaimer Action.PROTO sampleInfo sampleProtoMail
  have c4 := claim10_staleness_disclaimer Action.LAST_CALL sampleInfo sampleLastCallMail
  refine ⟨c1.1 (by decide) (by decide) rfl, c2.2.1 rfl, ?_, ?_⟩
  · exact c3.2.2.1 rfl (by decide) (by decide) (by decide)
  · exact c4.2.2.2 rfl (by decide) (by decide) (by decide)

deriving instance DecidableEq for Sum

instance {α β : Type} [DecidableEq α] [DecidableEq β] : BEq (α ⊕ β) :=
  ⟨fun x y => decide (x = y)⟩

instance {α β : Type} [DecidableEq α] [DecidableEq β] : LawfulBEq (α ⊕ β) where
  eq_of_beq h := of_decide_eq_true h
  rfl := by simp [BEq.beq]

/-- A queued update of the reporting loop: the tuple
`(identifier, action, new record)` that `main` appends to `updates`.
Accepted documents are keyed by number (`Sum.inl`), protoXEPs by name
(`Sum.inr`), matching the int/str keys of the two source mappings. -/
abbrev UpdateEntry := (Nat ⊕ String) × Action × XEPInfo

/-- Embeds the body of the `common_xeps` loop in `main` for one identifier:
classify, and for an `UPDATE` action consult the significance filter (whose
failure propagates, the outer `none`); the inner `Option Action` is the
queued action, `none` meaning nothing is queued for this identifier. -/
def process_common (old_info new_info : XEPInfo) (ie ine : Bool) :
    Option (Option Action) :=
  match diff_infos old_info new_info with
  | some Action.UPDATE =>
    match filter_bump_level (extract_version old_info)
        (extract_version new_info) ie ine with
    | none => none
    | some true => some (some Action.UPDATE)
    | some false => some none
  | a => some a

/-- Embeds `common_xeps = old_xeps & new_xeps` together with the two
dictionary reads of the loop header: the identifiers of the old snapshot
that also occur in the new one, with both records.  The source iterates a
set; with duplicate-free key lists (Python dictionaries) the order is the
only difference, and no claim concerns order. -/
def commonPairs (oa na : List (Nat × XEPInfo)) : List (Nat × XEPInfo × XEPInfo) :=
  oa.filterMap (fun p => (na.lookup p.1).map (fun q => (p.1, p.2, q)))

/-- Sequential evaluation of a fallible step over a list, stopping at the
first failure, as the source loop would crash at the first failing
iteration. -/
def mapOption (f : α → Option β) : List α → Option (List β)
  | [] => some []
  | x :: xs =>
    match f x, mapOption f xs with
    | some y, some ys => some (y :: ys)
    | _, _ => none

/-- Embeds the `common_xeps` loop of `main`: process every common
identifier, keep the queued entries. -/
def commonEntries (oa na : List (Nat × XEPInfo)) (ie ine : Bool) :
    Option (List UpdateEntry) :=
  (mapOption
    (fun t =>
      (process_common t.2.1 t.2.2 ie ine).map
        (fun r => r.map (fun a => ((Sum.inl t.1 : Nat ⊕ String), a, t.2.2))))
    (commonPairs oa na)).map
    (fun es => es.filterMap id)

/-- Embeds the `added_xeps` loop of `main`: identifiers only in the new
snapshot are classified against the `dummy_info` sentinel and queued when
the action is non-null; no significance filtering happens here. -/
def addedEntries (oa na : List (Nat × XEPInfo)) : List UpdateEntry :=
  (na.filter (fun p => (oa.lookup p.1).isNone)).filterMap
    (fun p =>
      (diff_infos (dummy_info p.1) p.2).map
        (fun a => ((Sum.inl p.1 : Nat ⊕ String), a, p.2)))

/-- Embeds the `added_protos` loop of `main` (run only with
`include_protoxep`): newly appeared protoXEPs are classified against a
dummy record and queued when the action is non-null.  The source passes the
placeholder string `xxxx` as the dummy's number; the field is never read,
so the numeric dummy is used here. -/
def protoEntries (op np : List (String × XEPInfo)) (include_protoxep : Bool) :
    List UpdateEntry :=
  if include_protoxep then
    (np.filter (fun p => (op.lookup p.1).isNone)).filterMap
      (fun p =>
        (diff_infos (dummy_info 0) p.2).map
          (fun a => ((Sum.inr p.1 : Nat ⊕ String), a, p.2)))
  else []

/-- Embeds the whole queue-building phase of `main`: the `updates` list, or
`none` when an iteration of the common loop raises. -/
def computeUpdates (oa na : List (Nat × XEPInfo))
    (op np : List (String × XEPInfo)) (ipx ie ine : Bool) :
    Option (List UpdateEntry) :=
  (commonEntries oa na ie ine).map
    (fun c => c ++ addedEntries oa na ++ protoEntries op np ipx)

/-- The identifiers on which the reporting loop invokes `diff_infos` at
all: the common identifiers, the identifiers only in the new snapshot, and
(when enabled) the newly appeared protoXEP names.  Identifiers only in the
old snapshot appear in none of the three loops of `main`. -/
def classifiedKeys (oa na : List (Nat × XEPInfo))
    (op np : List (String × XEPInfo)) (ipx : Bool) : List (Nat ⊕ String) :=
  (commonPairs oa na).map (fun t => Sum.inl t.1) ++
  (na.filter (fun p => (oa.lookup p.1).isNone)).map (fun p => Sum.inl p.1) ++
  (if ipx then
    (np.filter (fun p => (op.lookup p.1).isNone)).map (fun p => Sum.inr p.1)
  else [])

theorem lookup_eq_none_iff {α β : Type} [BEq α] [LawfulBEq α]
    (l : List (α × β)) (k : α) :
    l.lookup k = none ↔ k ∉ l.map Prod.fst := by
  induction l with
  | nil => simp [List.lookup]
  | cons p l ih =>
    obtain ⟨k0, v⟩ := p
    cases h : k == k0 with
    | true =>
      simp only [List.lookup, h]
      simp [eq_of_beq h]
    | false =>
      simp only [List.lookup, h]
      have hne : ¬ k = k0 := by
        intro he
        subst he
        simp at h
      simp [ih, hne]

theorem lookup_eq_some_mem {α β : Type} [BEq α] [LawfulBEq α]
    {l : List (α × β)} {k : α} {v : β}
    (h : l.lookup k = some v) : (k, v) ∈ l := by
  induction l with
  | nil => simp [List.lookup] at h
  | cons p l ih =>
    obtain ⟨k0, w⟩ := p
    cases hb : k == k0 with
    | true =>
      simp only [List.lookup, hb] at h
      rw [Option.some_inj] at h
      subst h
      rw [eq_of_beq hb]
      exact List.mem_cons_self _ _
    | false =>
      simp only [List.lookup, hb] at h
      exact List.mem_cons_of_mem _ (ih h)

theorem lookup_isSome_of_mem_keys {α β : Type} [BEq α] [LawfulBEq α]
    {l : List (α × β)} {k : α}
    (h : k ∈ l.map Prod.fst) : ∃ v, l.lookup k = some v := by
  cases hl : l.lookup k with
  | none => rw [lookup_eq_none_iff] at hl; exact absurd h hl
  | some v => exact ⟨v, rfl⟩

theorem mapOption_mem {α β : Type} {f : α → Option β} :
    ∀ {l : List α} {l2 : List β}, mapOption f l = some l2 →
      ∀ {x : α}, x ∈ l → ∀ {y : β}, f x = some y → y ∈ l2 := by
  intro l
  induction l with
  | nil =>
    intro l2 h x hx
    simp at hx
  | cons a l ih =>
    intro l2 h x hx y hy
    cases hfa : f a with
    | none =>
      rw [mapOption, hfa] at h
      exact absurd h (by simp)
    | some b =>
      cases hml : mapOption f l with
      | none =>
        rw [mapOption, hfa, hml] at h
        exact absurd h (by simp)
      | some bs =>
        rw [mapOption, hfa, hml, Option.some_inj] at h
        subst h
        rcases List.mem_cons.mp hx with hx | hx
        · subst hx
          rw [hy, Option.some_inj] at hfa
          subst hfa
          exact List.mem_cons_self _ _
        · exact List.mem_cons_of_mem _ (ih hml hx hy)

theorem countP_filterMap_le {α β : Type} (g : α → Option β) (p : β → Bool)
    (q : α → Bool) (h : ∀ x y, g x = some y → p y = true → q x = true)
    (l : List α) :
    (l.filterMap g).countP p ≤ l.countP q := by
  induction l with
  | nil => simp
  | cons a l ih =>
    cases hga : g a with
    | none =>
      rw [show (a :: l).filterMap g = l.filterMap g by
        simp [List.filterMap_cons, hga]]
      rw [List.countP_cons]
      have := ih
      split <;> omega
    | some b =>
      rw [show (a :: l).filterMap g = b :: l.filterMap g by
        simp [List.filterMap_cons, hga]]
      rw [List.countP_cons, List.countP_cons]
      have := ih
      by_cases hp : p b = true
      · rw [if_pos hp, if_pos (h a b hga hp)]
        omega
      · rw [if_neg hp]
        split <;> omega

theorem countP_le_of_mapOption {α β : Type} {f : α → Option (Option β)}
    {p : β → Bool} {q : α → Bool}
    (hfq : ∀ t r, f t = some r → ∀ e, r = some e → p e = true → q t = true) :
    ∀ {ts : List α} {es : List (Option β)}, mapOption f ts = some es →
      (es.filterMap id).countP p ≤ ts.countP q := by
  intro ts
  induction ts with
  | nil =>
    intro es h
    rw [mapOption, Option.some_inj] at h
    subst h
    simp
  | cons t ts ih =>
    intro es h
    cases hft : f t with
    | none =>
      rw [mapOption, hft] at h
      exact absurd h (by simp)
    | some r =>
      cases hml : mapOption f ts with
      | none =>
        rw [mapOption, hft, hml] at h
        exact absurd h (by simp)
      | some rs =>
        rw [mapOption, hft, hml, Option.some_inj] at h
        subst h
        rw [List.countP_cons]
        cases r with
        | none =>
          rw [show List.filterMap id (none :: rs) = List.filterMap id rs from rfl]
          have := ih hml
          split <;> omega
        | some e =>
          rw [show List.filterMap id (some e :: rs) = e :: List.filterMap id rs
            from rfl]
          rw [List.countP_cons]
          have := ih hml
          by_cases hp : p e = true
          · rw [if_pos hp, if_pos (hfq t (some e) hft e rfl hp)]
            omega
          · rw [if_neg hp]
            split <;> omega

theorem countP_key_le_one {β : Type} (l : List (Nat × β))
    (hnd : (l.map Prod.fst).Nodup) (k : Nat) :
    l.countP (fun p => decide (p.1 = k)) ≤ 1 := by
  induction l with
  | nil => simp
  | cons a l ih =>
    rw [List.map_cons, List.nodup_cons] at hnd
    rw [List.countP_cons]
    by_cases hk : a.1 = k
    · have hz : l.countP (fun p => decide (p.1 = k)) = 0 := by
        rw [List.countP_eq_zero]
        intro x hx
        simp only [decide_eq_true_eq]
        intro hxk
        apply hnd.1
        rw [hk, ← hxk]
        exact List.mem_map_of_mem Prod.fst hx
      rw [hz, if_pos (by simp [hk])]
    · rw [if_neg (by simp [hk])]
      have := ih hnd.2
      omega

theorem process_common_of_ne_update {o n : XEPInfo} {ie ine : Bool} {a : Action}
    (hd : diff_infos o n = some a) (hne : a ≠ Action.UPDATE) :
    process_common o n ie ine = some (some a) := by
  unfold process_common
  rw [hd]
  cases a with
  | UPDATE => exact absurd rfl hne
  | PROTO => rfl
  | NEW => rfl
  | LAST_CALL => rfl
  | DEFER => rfl
  | DRAFT => rfl
  | ACTIVE => rfl
  | FINAL => rfl

theorem mem_protoEntries_key {op np : List (String × XEPInfo)} {ipx : Bool}
    {e : UpdateEntry} (he : e ∈ protoEntries op np ipx) :
    ∃ s : String, e.1 = Sum.inr s := by
  unfold protoEntries at he
  split at he
  · obtain ⟨p, _, hp⟩ := List.mem_filterMap.mp he
    obtain ⟨a, _, hpa⟩ := Option.map_eq_some'.mp hp
    exact ⟨p.1, by rw [← hpa]⟩
  · simp at he

theorem mem_addedEntries_key {oa na : List (Nat × XEPInfo)} {e : UpdateEntry}
    (he : e ∈ addedEntries oa na) :
    ∃ p ∈ na, (oa.lookup p.1).isNone = true ∧ e.1 = Sum.inl p.1 := by
  unfold addedEntries at he
  obtain ⟨p, hpf, hp⟩ := List.mem_filterMap.mp he
  obtain ⟨a, _, hpa⟩ := Option.map_eq_some'.mp hp
  rw [List.mem_filter] at hpf
  exact ⟨p, hpf.1, hpf.2, by rw [← hpa]⟩

theorem mem_commonPairs {oa na : List (Nat × XEPInfo)}
    {t : Nat × XEPInfo × XEPInfo} (ht : t ∈ commonPairs oa na) :
    (t.1, t.2.1) ∈ oa ∧ na.lookup t.1 = some t.2.2 := by
  unfold commonPairs at ht
  obtain ⟨p, hpo, hp⟩ := List.mem_filterMap.mp ht
  obtain ⟨q, hq, hpq⟩ := Option.map_eq_some'.mp hp
  rw [← hpq]
  exact ⟨hpo, hq⟩

/-- Amended C3: every identifier of the new snapshot (common or newly
added) is classified; identifiers present only in the old snapshot are never
classified at all; and, with duplicate-free key lists (Python dictionary
snapshots), at most one queued action exists per accepted identifier. -/
theorem claim3_amended_classification_coverage (oa na : List (Nat × XEPInfo))
    (op np : List (String × XEPInfo)) (ipx ie ine : Bool) (k : Nat) :
    (k ∈ na.map Prod.fst →
      (Sum.inl k : Nat ⊕ String) ∈ classifiedKeys oa na op np ipx) ∧
    (k ∈ oa.map Prod.fst → k ∉ na.map Prod.fst →
      (Sum.inl k : Nat ⊕ String) ∉ classifiedKeys oa na op np ipx) ∧
    ((oa.map Prod.fst).Nodup → (na.map Prod.fst).Nodup →
      ∀ l : List UpdateEntry, computeUpdates oa na op np ipx ie ine = some l →
        l.countP (fun e => decide (e.1 = Sum.inl k)) ≤ 1) := by
  refine ⟨?_, ?_, ?_⟩
  · intro hk
    unfold classifiedKeys
    cases hok : oa.lookup k with
    | none =>
      obtain ⟨p, hpna, hpk⟩ := List.mem_map.mp hk
      refine List.mem_append_left _ (List.mem_append_right _ ?_)
      refine List.mem_map.mpr ⟨p, ?_, by rw [hpk]⟩
      rw [List.mem_filter]
      refine ⟨hpna, ?_⟩
      rw [hpk, hok]
      rfl
    | some v =>
      obtain ⟨w, hw⟩ := lookup_isSome_of_mem_keys hk
      refine List.mem_append_left _ (List.mem_append_left _ ?_)
      refine List.mem_map.mpr ⟨(k, v, w), ?_, rfl⟩
      unfold commonPairs
      refine List.mem_filterMap.mpr ⟨(k, v), lookup_eq_some_mem hok, ?_⟩
      rw [hw]
      rfl
  · intro hko hkn hmem
    unfold classifiedKeys at hmem
    rcases List.mem_append.mp hmem with hmem | hmem
    · rcases List.mem_append.mp hmem with hmem | hmem
      · obtain ⟨t, ht, htk⟩ := List.mem_map.mp hmem
        rw [Sum.inl.injEq] at htk
        obtain ⟨_, hlk⟩ := mem_commonPairs ht
        rw [htk] at hlk
        exact hkn (List.mem_map_of_mem Prod.fst (lookup_eq_some_mem hlk))
      · obtain ⟨p, hpf, hpk⟩ := List.mem_map.mp hmem
        rw [Sum.inl.injEq] at hpk
        rw [List.mem_filter] at hpf
        rw [← hpk] at hkn
        exact hkn (List.mem_map_of_mem Prod.fst hpf.1)
    · split at hmem
      · obtain ⟨p, _, hpk⟩ := List.mem_map.mp hmem
        exact absurd hpk (by simp)
      · simp at hmem
  · intro hoa hna l hl
    unfold computeUpdates at hl
    obtain ⟨c, hc, hcl⟩ := Option.map_eq_some'.mp hl
    unfold commonEntries at hc
    obtain ⟨es, hes, hces⟩ := Option.map_eq_some'.mp hc
    subst hcl
    subst hces
    rw [List.countP_append, List.countP_append]
    have hproto : (protoEntries op np ipx).countP
        (fun e => decide (e.1 = Sum.inl k)) = 0 := by
      rw [List.countP_eq_zero]
      intro e he
      obtain ⟨s, hs⟩ := mem_protoEntries_key he
      simp [hs]
    have hcommon_le := countP_le_of_mapOption
      (p := fun e : UpdateEntry => decide (e.1 = Sum.inl k))
      (q := fun t : Nat × XEPInfo × XEPInfo => decide (t.1 = k))
      (fun t r hfr e hre hpe => by
        obtain ⟨pc, _, hpc⟩ := Option.map_eq_some'.mp hfr
        subst hpc
        obtain ⟨a, _, hga⟩ := Option.map_eq_some'.mp hre
        rw [← hga] at hpe
        simp only [decide_eq_true_eq, Sum.inl.injEq] at hpe
        simp [hpe])
      hes
    have hadded_le : (addedEntries oa na).countP
        (fun e => decide (e.1 = Sum.inl k)) ≤
        na.countP (fun p => decide (p.1 = k)) := by
      unfold addedEntries
      refine le_trans (countP_filterMap_le _ _
        (fun p => decide (p.1 = k)) ?_ _) ?_
      · intro x y hxy hpy
        obtain ⟨a, _, hga⟩ := Option.map_eq_some'.mp hxy
        rw [← hga] at hpy
        simpa using hpy
      · exact List.Sublist.countP_le _ (List.filter_sublist na)
    cases hok : oa.lookup k with
    | some v =>
      have hadded : (addedEntries oa na).countP
          (fun e => decide (e.1 = Sum.inl k)) = 0 := by
        rw [List.countP_eq_zero]
        intro e he
        obtain ⟨p, _, hpn, hpk⟩ := mem_addedEntries_key he
        simp only [decide_eq_true_eq, hpk, Sum.inl.injEq]
        intro hkp
        rw [hkp, hok] at hpn
        simp at hpn
      have hcp := countP_key_le_one oa hoa k
      have hcommon2 : (commonPairs oa na).countP
          (fun t => decide (t.1 = k)) ≤ 1 := by
        unfold commonPairs
        refine le_trans (countP_filterMap_le _ _
          (fun p => decide (p.1 = k)) ?_ _) hcp
        intro x y hxy hpy
        obtain ⟨q, _, hq⟩ := Option.map_eq_some'.mp hxy
        rw [← hq] at hpy
        simpa using hpy
      omega
    | none =>
      have hcommon0 : (commonPairs oa na).countP
          (fun t => decide (t.1 = k)) = 0 := by
        rw [List.countP_eq_zero]
        intro t ht
        obtain ⟨hto, _⟩ := mem_commonPairs ht
        simp only [decide_eq_true_eq]
        intro htk
        rw [lookup_eq_none_iff] at hok
        apply hok
        rw [← htk]
        exact List.mem_map_of_mem Prod.fst hto
      have hna_le := countP_key_le_one na hna k
      omega

theorem claim3_counterexample :
    (1 : Nat) ∈ ([(1, sampleInfo)] : List (Nat × XEPInfo)).map Prod.fst ∧
    (Sum.inl 1 : Nat ⊕ String) ∉ classifiedKeys [(1, sampleInfo)] [] [] [] true ∧
    computeUpdates [(1, sampleInfo)] [] [] [] true true true = some [] := by
  refine ⟨by decide, by decide, by decide⟩

theorem claim3_witness :
    (1 : Nat) ∈ ([(1, sampleInfo), (2, sampleInfo)] :
      List (Nat × XEPInfo)).map Prod.fst ∧
    (Sum.inl 1 : Nat ⊕ String) ∈
      classifiedKeys [(1, sampleInfo)] [(1, sampleInfo), (2, sampleInfo)]
        [] [] true ∧
    (3 : Nat) ∈ ([(3, sampleInfo)] : List (Nat × XEPInfo)).map Prod.fst ∧
    (Sum.inl 3 : Nat ⊕ String) ∉ classifiedKeys [(3, sampleInfo)] [] [] [] true ∧
    ((computeUpdates [(1, sampleInfo)] [(1, sampleInfo), (2, sampleInfo)]
        [] [] true true true).getD []).countP
      (fun e => decide (e.1 = Sum.inl 1)) ≤ 1 := by
  have c1 := (claim3_amended_classification_coverage
    [(1, sampleInfo)] [(1, sampleInfo), (2, sampleInfo)] [] [] true true true 1).1
    (by decide)
  have c2 := (claim3_amended_classification_coverage
    [(3, sampleInfo)] [] [] [] true true true 3).2.1 (by decide) (by decide)
  have c3 := (claim3_amended_classification_coverage
    [(1, sampleInfo)] [(1, sampleInfo), (2, sampleInfo)] [] [] true true true 1).2.2
    (by decide) (by decide)
    ((computeUpdates [(1, sampleInfo)] [(1, sampleInfo), (2, sampleInfo)]
      [] [] true true true).getD []) (by decide)
  exact ⟨by decide, c1, by decide, c2, c3⟩

/-- C6: the significance filter can only suppress `UPDATE` actions of
identifiers common to both snapshots: every entry of the added-XEPs loop
and of the protoXEPs loop is queued whatever the editorial flags are, and a
common identifier whose classified action is not `UPDATE` is queued
whatever the editorial flags are. -/
theorem claim6_no_filter_outside_common_updates (oa na : List (Nat × XEPInfo))
    (op np : List (String × XEPInfo)) (ipx ie ine : Bool)
    (l : List UpdateEntry)
    (hl : computeUpdates oa na op np ipx ie ine = some l) :
    (∀ e ∈ addedEntries oa na, e ∈ l) ∧
    (∀ e ∈ protoEntries op np ipx, e ∈ l) ∧
    (∀ t ∈ commonPairs oa na, ∀ a : Action, diff_infos t.2.1 t.2.2 = some a →
      a ≠ Action.UPDATE →
      ((Sum.inl t.1 : Nat ⊕ String), a, t.2.2) ∈ l) := by
  unfold computeUpdates at hl
  obtain ⟨c, hc, hcl⟩ := Option.map_eq_some'.mp hl
  subst hcl
  refine ⟨?_, ?_, ?_⟩
  · intro e he
    exact List.mem_append_left _ (List.mem_append_right _ he)
  · intro e he
    exact List.mem_append_right _ he
  · intro t ht a hd hne
    unfold commonEntries at hc
    obtain ⟨es, hes, hces⟩ := Option.map_eq_some'.mp hc
    subst hces
    refine List.mem_append_left _ (List.mem_append_left _ ?_)
    refine List.mem_filterMap.mpr
      ⟨some ((Sum.inl t.1 : Nat ⊕ String), a, t.2.2), ?_, rfl⟩
    refine mapOption_mem hes ht ?_
    rw [process_common_of_ne_update hd hne]
    rfl

/-- Concrete snapshots for evaluating the reporting loop: one common XEP
whose status is promoted, one newly added XEP, one new protoXEP. -/
def w6old : XEPInfo := { dummy_info 3 with status := some Status.EXPERIMENTAL }

/-- Concrete new state of the common XEP. -/
def w6new : XEPInfo := { dummy_info 3 with status := some Status.DRAFT }

/-- Concrete newly added XEP. -/
def w6add : XEPInfo := { dummy_info 5 with status := some Status.EXPERIMENTAL }

/-- Concrete newly added protoXEP. -/
def w6proto : XEPInfo :=
  { dummy_info 0 with status := some Status.PROTO, protoname := "sleek" }

/-- The queue the loop builds from the `w6` snapshots with both editorial
flags off. -/
def w6updates : List UpdateEntry :=
  (computeUpdates [(3, w6old)] [(3, w6new), (5, w6add)] [] [("sleek", w6proto)]
    true false false).getD []

theorem claim6_witness :
    computeUpdates [(3, w6old)] [(3, w6new), (5, w6add)] [] [("sleek", w6proto)]
      true false false = some w6updates ∧
    ((Sum.inl 5 : Nat ⊕ String), Action.NEW, w6add) ∈ w6updates ∧
    ((Sum.inr "sleek" : Nat ⊕ String), Action.PROTO, w6proto) ∈ w6updates ∧
    ((Sum.inl 3 : Nat ⊕ String), Action.DRAFT, w6new) ∈ w6updates := by
  have hl : computeUpdates [(3, w6old)] [(3, w6new), (5, w6add)] []
      [("sleek", w6proto)] true false false = some w6updates := by rfl
  have c := claim6_no_filter_outside_common_updates _ _ _ _ _ _ _ _ hl
  refine ⟨hl, c.1 _ (by decide), c.2.1 _ (by decide), ?_⟩
  exact c.2.2 (3, w6old, w6new) (by decide) Action.DRAFT (by decide) (by decide)

/-- Concrete record whose version vanishes between snapshots. -/
def w7old : XEPInfo :=
  { dummy_info 1 with
      status := some Status.EXPERIMENTAL
      last_revision := some { version := some "1.0", remark := none, initials := none } }

/-- Concrete new state with the version gone. -/
def w7new : XEPInfo :=
  { dummy_info 1 with
      status := some Status.EXPERIMENTAL
      last_revision := some { version := none, remark := none, initials := none } }

/-- C7: `filter_bump_level` has no result when the old version is present
and the new one is absent (the source would call `decompose_version` on
`None`), and the reporting loop reaches exactly this state when a record's
last-revision version disappears between snapshots: the whole queue-building
phase fails on the `w7` snapshots. -/
theorem claim7_filter_undefined_on_vanished_version :
    (∀ ov : String, ∀ ie ine : Bool,
      filter_bump_level (some ov) none ie ine = none) ∧
    diff_infos w7old w7new = some Action.UPDATE ∧
    process_common w7old w7new true true = none ∧
    computeUpdates [(1, w7old)] [(1, w7new)] [] [] true true true = none := by
  refine ⟨?_, by decide, by decide, by decide⟩
  intro ov ie ine
  rfl

/-- C8: a deferred document revived to experimental with an unchanged or
only patch-level-changed version is an `UPDATE` whose version delta is
classified editorial, so with `include_editorial` off the significance
filter suppresses it and nothing is queued for it: the revival goes
unannounced. -/
theorem claim8_revived_deferred_suppressed (old new : XEPInfo) (ov nv : String)
    (ine : Bool)
    (h1 : old.status = some Status.DEFERRED)
    (h2 : new.status = some Status.EXPERIMENTAL)
    (h3 : extract_version old = some ov)
    (h4 : extract_version new = some nv)
    (h5 : (decompose_version ov).take 2 = (decompose_version nv).take 2) :
    diff_infos old new = some Action.UPDATE ∧
    filter_bump_level (extract_version old) (extract_version new) false ine
      = some false ∧
    process_common old new false ine = some none := by
  have hd : diff_infos old new = some Action.UPDATE := by
    unfold diff_infos
    simp [h1, h2]
  have hf : filter_bump_level (extract_version old) (extract_version new)
      false ine = some false := by
    rw [h3, h4]
    unfold filter_bump_level
    simp [h5]
  refine ⟨hd, hf, ?_⟩
  unfold process_common
  rw [hd, hf]

/-- Concrete revived record, old state: deferred at version 1.2.3. -/
def w8old : XEPInfo :=
  { dummy_info 2 with
      status := some Status.DEFERRED
      last_revision := some { version := some "1.2.3", remark := none, initials := none } }

/-- Concrete revived record, new state: experimental at version 1.2.9. -/
def w8new : XEPInfo :=
  { dummy_info 2 with
      status := some Status.EXPERIMENTAL
      last_revision := some { version := some "1.2.9", remark := none, initials := none } }

theorem claim8_witness :
    diff_infos w8old w8new = some Action.UPDATE ∧
    process_common w8old w8new false true = some none := by
  have c := claim8_revived_deferred_suppressed w8old w8new "1.2.3" "1.2.9" true
    rfl rfl rfl rfl (by decide)
  exact ⟨c.1, c.2.2⟩

end XepsTool
